import Mathlib

/-!
Verification of the Owshen wallet (`src/main.rs`) against its
natural-language specification.

The wallet's `main.rs` declares the CLI options, the HTTP request/response
shapes, the `Coin`/`Wallet`/`Context` data model, the address conversions
`u256_to_h160`/`h160_to_u256`, the error handler `handle_error`, the server
setup `serve_wallet`, and the `init`/`wallet`/`info` command dispatch.
The crate modules `tree`, `hash`, `keys`, `apis`, `proof` are not part of
the provided source; where a claim depends on them, the corresponding
definition is modelled from the specification and marked as such in its
doc comment.  Machine integers (`U256`, `H160`, `u16`) are embedded as
`Nat`; byte buffers as `List Nat` of values below 256.
-/

/-- An affine curve point `(x, y)`; the field elements are embedded as `Nat`
(the `keys` module is external, only the coordinate access pattern
`pub_key.x`, `pub_key.y` matters here). -/
structure Point where
  x : Nat
  y : Nat
deriving DecidableEq, Repr

/-- Modelled from the spec: `PublicKey` is a curve point exposing affine
coordinates `x` and `y` (the `keys` module is not in the provided source). -/
structure PublicKey where
  x : Nat
  y : Nat
deriving DecidableEq, Repr

/-- Modelled from the spec: the opaque serialized proof envelope produced by
the external prover (the `proof` module is not in the provided source). -/
structure Proof where
  bytes : List Nat
deriving DecidableEq, Repr

/-- The `Coin` struct of `main.rs`: one shielded balance owned by the wallet.
`U256`/`H160` fields are embedded as `Nat`, `PrivateKey` as the scalar. -/
structure Coin where
  index : Nat
  uint_token : Nat
  amount : Nat
  priv_key : Nat
  pub_key : PublicKey
  nullifier : Nat
  commitment : Nat
deriving DecidableEq, Repr

/-- The `TokenInfo` struct of `main.rs`. -/
structure TokenInfo where
  token_address : Nat
  symbol : String
deriving DecidableEq, Repr

/-- The `Wallet` struct of `main.rs` (the persisted wallet file).  The two
ABI fields are opaque to the wallet logic and embedded as strings. -/
structure Wallet where
  priv_key : Nat
  endpoint : String
  dive_contract_address : Nat
  owshen_contract_address : Nat
  owshen_contract_abi : String
  erc20_abi : String
  token_contracts : List TokenInfo
deriving DecidableEq, Repr

/-- The `GetWithdrawRequest` struct of `main.rs`: the query parameters of the
`/withdraw` route, deserialized from the caller-supplied query string. -/
structure GetWithdrawRequest where
  index : Nat
  address : String
  desire_amount : String
deriving DecidableEq, Repr

/-- The `GetSendRequest` struct of `main.rs`: the query parameters of the
`/send` route, deserialized from the caller-supplied query string. -/
structure GetSendRequest where
  index : Nat
  new_amount : String
  receiver_address : String
  address : String
deriving DecidableEq, Repr

/-- The `GetWithdrawResponse` struct of `main.rs`. -/
structure GetWithdrawResponse where
  proof : Proof
  token : Nat
  amount : Nat
  obfuscated_remaining_amount : Nat
  nullifier : Nat
  commitment : Nat
  ephemeral : Point
deriving DecidableEq, Repr

/-- The `GetSendResponse` struct of `main.rs`. -/
structure GetSendResponse where
  proof : Proof
  token : Nat
  amount : Nat
  nullifier : Nat
  receiver_commitment : Nat
  sender_commitment : Nat
  sender_ephemeral : Point
  receiver_ephemeral : Point
  obfuscated_receiver_amount : Nat
  obfuscated_sender_amount : Nat
deriving DecidableEq, Repr

/-- The ordered field tuple of a `GetWithdrawResponse`, used to state that
the response exposes exactly these seven fields. -/
def withdrawResponseFields (r : GetWithdrawResponse) :
    Proof × Nat × Nat × Nat × Nat × Nat × Point :=
  (r.proof, r.token, r.amount, r.obfuscated_remaining_amount,
   r.nullifier, r.commitment, r.ephemeral)

/-- Rebuild a `GetWithdrawResponse` from its ordered field tuple. -/
def withdrawResponseOfFields (t : Proof × Nat × Nat × Nat × Nat × Nat × Point) :
    GetWithdrawResponse :=
  ⟨t.1, t.2.1, t.2.2.1, t.2.2.2.1, t.2.2.2.2.1, t.2.2.2.2.2.1, t.2.2.2.2.2.2⟩

/-- The ordered field tuple of a `GetSendResponse`, used to state that the
response exposes exactly these ten fields. -/
def sendResponseFields (r : GetSendResponse) :
    Proof × Nat × Nat × Nat × Nat × Nat × Point × Point × Nat × Nat :=
  (r.proof, r.token, r.amount, r.nullifier, r.receiver_commitment,
   r.sender_commitment, r.sender_ephemeral, r.receiver_ephemeral,
   r.obfuscated_receiver_amount, r.obfuscated_sender_amount)

/-- Rebuild a `GetSendResponse` from its ordered field tuple. -/
def sendResponseOfFields
    (t : Proof × Nat × Nat × Nat × Nat × Nat × Point × Point × Nat × Nat) :
    GetSendResponse :=
  ⟨t.1, t.2.1, t.2.2.1, t.2.2.2.1, t.2.2.2.2.1, t.2.2.2.2.2.1,
   t.2.2.2.2.2.2.1, t.2.2.2.2.2.2.2.1, t.2.2.2.2.2.2.2.2.1,
   t.2.2.2.2.2.2.2.2.2⟩

/-- Big-endian byte encoding of a `Nat` into exactly `n` bytes, as
`U256::to_big_endian` produces for `n = 32` (most significant byte first;
higher bytes of a too-large value are truncated mod `256^n`). -/
def toBytesBE : Nat → Nat → List Nat
  | 0, _ => []
  | n + 1, v => toBytesBE n (v / 256) ++ [v % 256]

/-- Big-endian byte decoding, as `U256::from_big_endian` / `H160::from_slice`
interpret a byte slice. -/
def fromBytesBE (bs : List Nat) : Nat :=
  bs.foldl (fun acc b => acc * 256 + b) 0

/-- Function `u256_to_h160` of `main.rs`: write the `U256` as 32 big-endian bytes and
keep bytes 12..32 (the last 20) as the `H160` address. -/
def u256_to_h160 (v : Nat) : Nat :=
  fromBytesBE ((toBytesBE 32 v).drop 12)

/-- Function `h160_to_u256` of `main.rs`: place the 20 address bytes into bytes 12..32
of a zeroed 32-byte buffer and read it back big-endian. -/
def h160_to_u256 (h : Nat) : Nat :=
  fromBytesBE (List.replicate 12 0 ++ toBytesBE 20 h)

/-- Modelled from the spec: the `SparseMerkleTree` of the external `tree`
module — a fixed depth `D` and the partial map from leaf index to stored
leaf value (`none` is the canonical empty leaf). -/
structure SparseMerkleTree where
  depth : Nat
  leaves : Nat → Option Nat

/-- Modelled from the spec: `SparseMerkleTree::new(depth)` initializes with
all leaves at the canonical empty value. -/
def smtNew (depth : Nat) : SparseMerkleTree :=
  ⟨depth, fun _ => none⟩

/-- Modelled from the spec: `insert(index, leaf_value)` sets the leaf at
`index`; the root recomputation is captured by `smtRoot` being a pure
function of the leaf map. -/
def smtInsert (t : SparseMerkleTree) (i v : Nat) : SparseMerkleTree :=
  ⟨t.depth, fun j => if j = i then some v else t.leaves j⟩

/-- Insert a list of `(index, value)` pairs left to right. -/
def smtInsertList (t : SparseMerkleTree) (l : List (Nat × Nat)) :
    SparseMerkleTree :=
  l.foldl (fun acc p => smtInsert acc p.1 p.2) t

/-- Modelled from the spec: the root of the subtree of height `d` whose
leftmost leaf is at offset `off * 2 ^ d`, compressing with `hash2` and using
the canonical empty-leaf value for uninserted slots. -/
def subRoot (hash2 : Nat → Nat → Nat) (emptyLeaf : Nat)
    (leaves : Nat → Option Nat) : Nat → Nat → Nat
  | 0, off => (leaves off).getD emptyLeaf
  | d + 1, off =>
      hash2 (subRoot hash2 emptyLeaf leaves d (2 * off))
            (subRoot hash2 emptyLeaf leaves d (2 * off + 1))

/-- Modelled from the spec: `root()` — a pure function of the
`(index → commitment)` mapping and the depth. -/
def smtRoot (hash2 : Nat → Nat → Nat) (emptyLeaf : Nat)
    (t : SparseMerkleTree) : Nat :=
  subRoot hash2 emptyLeaf t.leaves t.depth 0

/-- Leaf-index capacity of a fixed-depth sparse Merkle tree. -/
def smtCapacity (t : SparseMerkleTree) : Nat :=
  2 ^ t.depth

/-- The shared `Context` struct of `main.rs`: the wallet's coin list and
accumulator tree. -/
structure Context where
  coins : List Coin
  tree : SparseMerkleTree

/-- The hardcoded port of `WalletOpt` in `main.rs`
(`#[structopt(long, default_value = "8000")] port: u16`). -/
def walletOptDefaultPort : Nat := 8000

/-- A socket address as built by `SocketAddr::from(([a,b,c,d], port))`. -/
structure SocketAddr where
  ip : Nat × Nat × Nat × Nat
  port : Nat
deriving DecidableEq, Repr

/-- The observable setup performed by `serve_wallet` in `main.rs`: the
initial shared context and the address the HTTP server binds to. -/
structure ServeWalletSetup where
  context : Context
  bind_addr : SocketAddr

/-- The setup phase of `serve_wallet` in `main.rs`: it constructs
`SparseMerkleTree::new(16)`, wraps `Context { coins: vec![], tree }`, and
binds to `SocketAddr::from(([127, 0, 0, 1], 9000))`.  The `port` and
`priv_key` parameters are received (as in the source) and never used for
the context or the bind address. -/
def serve_wallet (port : Nat) (priv_key : Nat) : ServeWalletSetup :=
  let tree := smtNew 16
  let context : Context := ⟨[], tree⟩
  let addr : SocketAddr := ⟨(127, 0, 0, 1), 9000⟩
  ⟨context, addr⟩

/-- Response body as produced by axum's `IntoResponse`: either raw bytes or
a `Json(...)` payload. -/
inductive RespBody where
  | raw : String → RespBody
  | json : String → RespBody
deriving DecidableEq, Repr

/-- An HTTP response: status code and body. -/
structure HttpResponse where
  status : Nat
  body : RespBody
deriving DecidableEq, Repr

/-- Status code `StatusCode::INTERNAL_SERVER_ERROR`. -/
def INTERNAL_SERVER_ERROR : Nat := 500

/-- Function `handle_error` of `main.rs`: an `Ok` handler result is converted to a
response unchanged; an `Err` becomes a 500 response whose JSON body is
`format!("Internal server error: {}", e)`.  The handler result
`Result<T, eyre::Report>` is embedded as `Except String T`, the error
report by its display message. -/
def handle_error {T : Type} (into_response : T → HttpResponse) :
    Except String T → HttpResponse
  | .ok a => into_response a
  | .error e =>
      ⟨INTERNAL_SERVER_ERROR, .json ("Internal server error: " ++ e)⟩

/-- Whether a status code is in the HTTP success class `2xx`. -/
def isSuccessStatus (s : Nat) : Bool :=
  200 ≤ s && s < 300

/-- The `Init` branch of `main` in `main.rs`, as a function of the wallet
file's current contents: if the file exists and deserializes as a `Wallet`,
print "Wallet is already initialized!" and do nothing; otherwise deploy the
contracts and write a fresh wallet.  The fresh wallet (whose construction
draws randomness and network data) is a parameter; the returned pair is the
wallet file's contents after the command and whether contracts were
deployed and the file written. -/
def initCommand (fresh : Wallet) (existing : Option Wallet) :
    Option Wallet × Bool :=
  match existing with
  | some w => (some w, false)
  | none => (some fresh, true)

/-- One incoming deposit record handed to the scanning path: the stealth
pair, token address, amount and leaf index. -/
structure StealthRecord where
  address : Point
  ephemeral : Point
  token : Nat
  amount : Nat
  index : Nat
deriving DecidableEq, Repr

/-- Modelled from the spec: the coin-scanning path (`apis::coins`, not in
the provided source).  For each record it calls `try_recover_stealth`; on a
match returning the effective one-time scalar, it computes
`commitment = hash4(pub_key.x, pub_key.y, amount, token)` with the public
key of the recovered effective key and constructs a `Coin`.  The external
primitives `hash4`, `try_recover_stealth`, `PublicKey::from` and the
nullifier derivation are parameters. -/
def scan (hash4 : Nat → Nat → Nat → Nat → Nat)
    (try_recover_stealth : Nat → Point → Option Nat)
    (pub_key_of : Nat → PublicKey)
    (nullifier_of : Nat → Nat → Nat)
    (priv_key : Nat) (records : List StealthRecord) : List Coin :=
  records.filterMap (fun r =>
    (try_recover_stealth priv_key r.ephemeral).map (fun eff =>
      let pk := pub_key_of eff
      { index := r.index
        uint_token := r.token
        amount := r.amount
        priv_key := eff
        pub_key := pk
        nullifier := nullifier_of eff r.index
        commitment := hash4 pk.x pk.y r.amount r.token }))

/-! ### Helper lemmas -/

/-- The fixed-width big-endian encoding has exactly `n` bytes. -/
theorem toBytesBE_length (n : Nat) : ∀ v : Nat, (toBytesBE n v).length = n := by
  induction n with
  | zero => intro v; rfl
  | succ n ih => intro v; simp [toBytesBE, ih]

/-- Folding the big-endian decode over an `n`-byte encoding from accumulator
`acc` yields `acc * 256 ^ n + v % 256 ^ n`. -/
theorem foldl_toBytesBE (n : Nat) : ∀ v acc : Nat,
    (toBytesBE n v).foldl (fun acc b => acc * 256 + b) acc
      = acc * 256 ^ n + v % 256 ^ n := by
  induction n with
  | zero => intro v acc; simp [toBytesBE, Nat.mod_one]
  | succ n ih =>
      intro v acc
      have h256 : (256 : Nat) ^ (n + 1) = 256 * 256 ^ n := by
        rw [Nat.pow_succ]; ring
      rw [toBytesBE, List.foldl_append, ih]
      simp only [List.foldl_cons, List.foldl_nil]
      rw [h256, Nat.mod_mul]
      ring

/-- Decoding the `n`-byte big-endian encoding recovers the value mod `256 ^ n`. -/
theorem fromBytesBE_toBytesBE (n v : Nat) :
    fromBytesBE (toBytesBE n v) = v % 256 ^ n := by
  unfold fromBytesBE
  rw [foldl_toBytesBE]
  simp

/-- Dropping the `k` most significant bytes of a `(k + n)`-byte big-endian
encoding leaves the `n`-byte encoding. -/
theorem toBytesBE_drop (k : Nat) : ∀ n v : Nat,
    (toBytesBE (k + n) v).drop k = toBytesBE n v := by
  intro n
  induction n with
  | zero =>
      intro v
      have h : (toBytesBE (k + 0) v).length ≤ k := by
        rw [toBytesBE_length]; omega
      rw [List.drop_eq_nil_of_le h]
      rfl
  | succ n ih =>
      intro v
      have hk : k + (n + 1) = (k + n) + 1 := by omega
      have hlen : k ≤ (toBytesBE (k + n) (v / 256)).length := by
        rw [toBytesBE_length]; omega
      rw [hk, toBytesBE, List.drop_append_of_le_length hlen, ih]
      rfl

/-- Decoding a run of zero bytes from accumulator `0` stays `0`. -/
theorem foldl_replicate_zero (n : Nat) :
    (List.replicate n 0).foldl (fun acc b => acc * 256 + b) 0 = 0 := by
  induction n with
  | zero => rfl
  | succ n ih => simpa [List.replicate_succ] using ih

/-- Closed form of the source's `u256_to_h160`: keep the low 160 bits. -/
theorem u256_to_h160_eq (v : Nat) : u256_to_h160 v = v % 2 ^ 160 := by
  unfold u256_to_h160
  have h32 : (32 : Nat) = 12 + 20 := rfl
  rw [h32, toBytesBE_drop 12 20 v, fromBytesBE_toBytesBE]
  norm_num

/-- Closed form of the source's `h160_to_u256`: zero-extension, i.e. the
identity on values below `2 ^ 160`. -/
theorem h160_to_u256_eq (h : Nat) : h160_to_u256 h = h % 2 ^ 160 := by
  unfold h160_to_u256 fromBytesBE
  rw [List.foldl_append, foldl_replicate_zero, foldl_toBytesBE]
  norm_num

/-- Inserting at two distinct indices commutes. -/
theorem smtInsert_comm (t : SparseMerkleTree) (p q : Nat × Nat)
    (h : p.1 ≠ q.1) :
    smtInsert (smtInsert t p.1 p.2) q.1 q.2
      = smtInsert (smtInsert t q.1 q.2) p.1 p.2 := by
  unfold smtInsert
  simp only [SparseMerkleTree.mk.injEq, true_and]
  funext j
  by_cases hq : j = q.1
  · by_cases hp : j = p.1
    · exact absurd (hp.symm.trans hq) h
    · simp [hq, Ne.symm h]
  · by_cases hp : j = p.1
    · simp [hp, hq, h]
    · simp [hq, hp]

/-- Inserting a list of pairs with pairwise-distinct indices is invariant
under permutation of the list, for every starting tree. -/
theorem smtInsertList_perm : ∀ {l₁ l₂ : List (Nat × Nat)}, l₁.Perm l₂ →
    l₁.Pairwise (fun a b => a.1 ≠ b.1) →
    ∀ t : SparseMerkleTree, smtInsertList t l₁ = smtInsertList t l₂ := by
  intro l₁ l₂ hp
  induction hp with
  | nil => intro _ t; rfl
  | cons x h ih =>
      intro hd t
      simp only [smtInsertList, List.foldl_cons]
      exact ih (List.pairwise_cons.mp hd).2 (smtInsert t x.1 x.2)
  | swap x y l =>
      intro hd t
      have hyx : y.1 ≠ x.1 :=
        (List.pairwise_cons.mp hd).1 x (List.mem_cons_self x l)
      simp only [smtInsertList, List.foldl_cons]
      rw [smtInsert_comm t y x hyx]
  | trans h₁ h₂ ih₁ ih₂ =>
      intro hd t
      exact (ih₁ hd t).trans
        (ih₂ ((h₁.pairwise_iff fun hab => Ne.symm hab).mp hd) t)

/-! ### Claims -/

/-- C1: a coin constructed by the scan path stores
`commitment = hash4(pub_key.x, pub_key.y, amount, token)` of its own fields,
with the arguments in exactly that order. -/
theorem scan_coin_commitment_hash4
    (hash4 : Nat → Nat → Nat → Nat → Nat)
    (try_recover_stealth : Nat → Point → Option Nat)
    (pub_key_of : Nat → PublicKey) (nullifier_of : Nat → Nat → Nat)
    (priv_key : Nat) (records : List StealthRecord) (c : Coin)
    (hc : c ∈ scan hash4 try_recover_stealth pub_key_of nullifier_of
            priv_key records) :
    c.commitment = hash4 c.pub_key.x c.pub_key.y c.amount c.uint_token := by
  unfold scan at hc
  rw [List.mem_filterMap] at hc
  obtain ⟨r, _, hr⟩ := hc
  cases h : try_recover_stealth priv_key r.ephemeral with
  | none => rw [h] at hr; simp at hr
  | some eff =>
      rw [h] at hr
      have hc2 := Option.some.inj hr
      subst hc2
      rfl

theorem scan_coin_commitment_hash4_witness :
    (Coin.mk 5 3 4 8 (PublicKey.mk 8 9) 13 8943).commitment
      = (fun a b c d => a * 1000 + b * 100 + c * 10 + d) 8 9 4 3 :=
  scan_coin_commitment_hash4
    (fun a b c d => a * 1000 + b * 100 + c * 10 + d)
    (fun p e => some (p + e.x))
    (fun s => PublicKey.mk s (s + 1))
    (fun p i => p + i)
    7
    [StealthRecord.mk (Point.mk 0 0) (Point.mk 1 2) 3 4 5]
    (Coin.mk 5 3 4 8 (PublicKey.mk 8 9) 13 8943)
    (by decide)

/-- C2: inserting a set of `(index, value)` pairs with pairwise-distinct
indices into a freshly constructed tree yields the same root under any two
permutations of the insertion order. -/
theorem smt_root_order_independent (hash2 : Nat → Nat → Nat)
    (emptyLeaf : Nat) (d : Nat) (l₁ l₂ : List (Nat × Nat))
    (hp : l₁.Perm l₂) (hd : l₁.Pairwise (fun a b => a.1 ≠ b.1)) :
    smtRoot hash2 emptyLeaf (smtInsertList (smtNew d) l₁)
      = smtRoot hash2 emptyLeaf (smtInsertList (smtNew d) l₂) := by
  rw [smtInsertList_perm hp hd]

theorem smt_root_order_independent_witness :
    smtRoot (fun a b => a + 2 * b) 0 (smtInsertList (smtNew 2) [(0, 5), (1, 7)])
      = smtRoot (fun a b => a + 2 * b) 0
          (smtInsertList (smtNew 2) [(1, 7), (0, 5)]) :=
  smt_root_order_independent (fun a b => a + 2 * b) 0 2
    [(0, 5), (1, 7)] [(1, 7), (0, 5)] (by decide) (by decide)

/-- C3: the public withdraw and send request types each carry the coin's
leaf index as a caller-supplied field: every request is exactly its field
tuple including `index`, and requests differing in `index` are observably
distinct. -/
theorem requests_carry_leaf_index :
    (∀ r : GetWithdrawRequest,
        r = ⟨r.index, r.address, r.desire_amount⟩) ∧
    (∀ s : GetSendRequest,
        s = ⟨s.index, s.new_amount, s.receiver_address, s.address⟩) ∧
    (∀ r₁ r₂ : GetWithdrawRequest, r₁.index ≠ r₂.index → r₁ ≠ r₂) ∧
    (∀ s₁ s₂ : GetSendRequest, s₁.index ≠ s₂.index → s₁ ≠ s₂) := by
  refine ⟨fun r => rfl, fun s => rfl, ?_, ?_⟩
  · intro r₁ r₂ h he
    exact h (he ▸ rfl)
  · intro s₁ s₂ h he
    exact h (he ▸ rfl)

theorem requests_carry_leaf_index_witness :
    ({ index := 0, address := "a", desire_amount := "1" } : GetWithdrawRequest)
      ≠ { index := 1, address := "a", desire_amount := "1" } :=
  requests_carry_leaf_index.2.2.1 _ _ (by decide)

/-- C4: `serve_wallet` constructs the accumulator with fixed depth 16, so
its leaf-index capacity is exactly `2 ^ 16` positions. -/
theorem serve_wallet_tree_depth_sixteen (port priv_key : Nat) :
    (serve_wallet port priv_key).context.tree.depth = 16 ∧
    smtCapacity (serve_wallet port priv_key).context.tree = 2 ^ 16 :=
  ⟨rfl, rfl⟩

/-- C5: the withdraw response exposes exactly the seven fields
(proof, token, amount, obfuscated_remaining_amount, nullifier, commitment,
ephemeral) and the send response exactly the ten fields (proof, token,
amount, nullifier, receiver_commitment, sender_commitment, sender_ephemeral,
receiver_ephemeral, obfuscated_receiver_amount, obfuscated_sender_amount):
each response type is in bijection with its ordered field tuple. -/
theorem responses_expose_exact_fields :
    (∀ r : GetWithdrawResponse,
        withdrawResponseOfFields (withdrawResponseFields r) = r) ∧
    (∀ t, withdrawResponseFields (withdrawResponseOfFields t) = t) ∧
    (∀ r : GetSendResponse,
        sendResponseOfFields (sendResponseFields r) = r) ∧
    (∀ t, sendResponseFields (sendResponseOfFields t) = t) :=
  ⟨fun _ => rfl, fun _ => rfl, fun _ => rfl, fun _ => rfl⟩

/-- C6: on every wallet-server startup the shared context holds an empty
coin list and a freshly constructed empty depth-16 tree (every leaf slot
empty), independently of the wallet parameters — no state is loaded. -/
theorem serve_wallet_fresh_empty_context (port priv_key : Nat) :
    (serve_wallet port priv_key).context.coins = [] ∧
    (serve_wallet port priv_key).context.tree = smtNew 16 ∧
    (∀ i, (serve_wallet port priv_key).context.tree.leaves i = none) ∧
    (∀ port' priv_key',
        (serve_wallet port priv_key).context
          = (serve_wallet port' priv_key').context) :=
  ⟨rfl, rfl, fun _ => rfl, fun _ _ => rfl⟩

/-- C7: `handle_error` passes every success value through unchanged and
turns every error into a 500 response whose JSON body carries the error's
message; no error becomes a success-class response. -/
theorem handle_error_propagates {T : Type} (into_response : T → HttpResponse) :
    (∀ a : T, handle_error into_response (Except.ok a) = into_response a) ∧
    (∀ e : String,
        handle_error into_response (Except.error e)
          = ⟨500, RespBody.json ("Internal server error: " ++ e)⟩) ∧
    (∀ e : String,
        isSuccessStatus (handle_error into_response (Except.error e)).status
          = false) :=
  ⟨fun _ => rfl, fun _ => rfl, fun _ => rfl⟩

/-- C8: the wallet HTTP server always binds to `127.0.0.1:9000`; the `port`
CLI option (default 8000) is accepted and passed into `serve_wallet` but
never used, so every supplied port yields the same listening address. -/
theorem serve_wallet_binds_fixed_addr (port priv_key : Nat) :
    (serve_wallet port priv_key).bind_addr = ⟨(127, 0, 0, 1), 9000⟩ ∧
    walletOptDefaultPort = 8000 ∧
    (∀ port', (serve_wallet port priv_key).bind_addr
        = (serve_wallet port' priv_key).bind_addr) :=
  ⟨rfl, rfl, fun _ => rfl⟩

/-- C9: `u256_to_h160` keeps exactly the low 160 bits, `h160_to_u256`
zero-extends, and the two conversions compose to the identity on 160-bit
addresses and to reduction mod `2 ^ 160` on 256-bit values. -/
theorem h160_u256_roundtrip :
    (∀ h : Nat, h < 2 ^ 160 → u256_to_h160 (h160_to_u256 h) = h) ∧
    (∀ v : Nat, h160_to_u256 (u256_to_h160 v) = v % 2 ^ 160) := by
  constructor
  · intro h hh
    rw [h160_to_u256_eq, u256_to_h160_eq]
    omega
  · intro v
    rw [u256_to_h160_eq, h160_to_u256_eq]
    omega

theorem h160_u256_roundtrip_witness :
    u256_to_h160 (h160_to_u256 123456789) = 123456789 :=
  h160_u256_roundtrip.1 123456789 (by norm_num)

/-- C10: when the wallet file already holds a deserializable `Wallet`, the
init command performs no write — the file contents (and the private key in
them) are unchanged and no contracts are deployed. -/
theorem init_existing_wallet_no_write (fresh w : Wallet) :
    initCommand fresh (some w) = (some w, false) ∧
    (initCommand fresh (some w)).1.map Wallet.priv_key = some w.priv_key ∧
    (initCommand fresh (some w)).2 = false :=
  ⟨rfl, rfl, rfl⟩
